import Mathlib

/-!
Verification of the 4×4×4 tic-tac-toe authority server (`server.py`).

The development shallowly embeds the server's game logic:
* the board is a function `Nat → Nat → Nat → Int` indexed `(z, y, x)`,
  with cell values `0` (empty), `-1` (player 0), `1` (player 1),
  exactly as the Python board of nested lists;
* `lines` reproduces, in order, the 76-line enumeration built by
  `_check_winner`;
* `check_winner` folds over `lines` the way the Python loop does
  (first all `-1` line gives player 0, then all `1` gives player 1);
* `apply_move` embeds the `move` branch of `_handle_message`: the
  rejection checks in source order, the cell mutation, `last_move`,
  win detection, turn flip and the broadcast trigger;
* `pyInt` embeds the `int(...)` coercion applied to the message's
  coordinate fields, `handle_move` the surrounding try/except;
* `admitClient` / `next_player_id` embed the capacity gate of `_accept_loop`
  and the lowest-free-slot scan of `_next_player_id`;
* `broadcastRun` embeds the delivery loop of `_broadcast_state`;
* `lockTrace` embeds the acquire/release/send event order of a
  successful move, to reason about the lock discipline.
-/

namespace TTT3D

/-- Board indexed by (z, y, x): 0 empty, -1 player 0 (X), 1 player 1 (O). -/
abbrev Board := Nat → Nat → Nat → Int

def emptyBoard : Board := fun _ _ _ => 0

/-- The mark written for a player: `-1 if player == 0 else 1`. -/
def mark (p : Nat) : Int := if p = 0 then -1 else 1

/-- `range(4)`, the index list used throughout `_check_winner`. -/
def r4 : List Nat := [0, 1, 2, 3]

/-- rows (x) for each z,y. -/
def rowLines : List (List (Nat × Nat × Nat)) :=
  r4.flatMap fun z => r4.map fun y => r4.map fun x => (z, y, x)

/-- columns (y) for each z,x. -/
def colLines : List (List (Nat × Nat × Nat)) :=
  r4.flatMap fun z => r4.map fun x => r4.map fun y => (z, y, x)

/-- verticals (z) for each y,x. -/
def vertLines : List (List (Nat × Nat × Nat)) :=
  r4.flatMap fun y => r4.map fun x => r4.map fun z => (z, y, x)

/-- face diagonals per layer (z fixed). -/
def faceZLines : List (List (Nat × Nat × Nat)) :=
  r4.flatMap fun z => [r4.map fun i => (z, i, i), r4.map fun i => (z, i, 3 - i)]

/-- vertical face diagonals (x fixed). -/
def faceXLines : List (List (Nat × Nat × Nat)) :=
  r4.flatMap fun x => [r4.map fun i => (i, i, x), r4.map fun i => (i, 3 - i, x)]

/-- vertical face diagonals (y fixed). -/
def faceYLines : List (List (Nat × Nat × Nat)) :=
  r4.flatMap fun y => [r4.map fun i => (i, y, i), r4.map fun i => (i, y, 3 - i)]

/-- the 4 main space diagonals. -/
def spaceLines : List (List (Nat × Nat × Nat)) :=
  [r4.map fun i => (i, i, i), r4.map fun i => (i, i, 3 - i),
   r4.map fun i => (i, 3 - i, i), r4.map fun i => (3 - i, i, i)]

/-- The full `lines` list of `_check_winner`, in construction order. -/
def lines : List (List (Nat × Nat × Nat)) :=
  rowLines ++ colLines ++ vertLines ++ faceZLines ++ faceXLines ++ faceYLines ++ spaceLines

def cellVal (b : Board) (c : Nat × Nat × Nat) : Int := b c.1 c.2.1 c.2.2

/-- One iteration of the `for line in lines` loop: player 0 wins the line
if every value is `-1`, else player 1 if every value is `1`. -/
def lineWinner (b : Board) (l : List (Nat × Nat × Nat)) : Option Nat :=
  if l.all fun c => cellVal b c == -1 then some 0
  else if l.all fun c => cellVal b c == 1 then some 1
  else none

/-- `_check_winner`: first line fully owned decides; else `None`. -/
def check_winner (b : Board) : Option Nat := lines.findSome? (lineWinner b)

/-- A player fully owns a given line on a board. -/
def ownsLine (b : Board) (p : Nat) (l : List (Nat × Nat × Nat)) : Prop :=
  (l.all fun c => cellVal b c == mark p) = true

instance (b p l) : Decidable (ownsLine b p l) := by unfold ownsLine; infer_instance

/- Geometry: the enumerated lines are exactly the straight 4-cell lines
of the cube.  A line is canonically keyed by the sorted list of its
cell codes `z*16 + y*4 + x`. -/

def cellKey (c : Nat × Nat × Nat) : Nat := c.1 * 16 + c.2.1 * 4 + c.2.2

def insertKey (n : Nat) : List Nat → List Nat
  | [] => [n]
  | m :: ms => if n ≤ m then n :: m :: ms else m :: insertKey n ms

def sortKeys (l : List Nat) : List Nat := l.foldr insertKey []

def lineKey (l : List (Nat × Nat × Nat)) : List Nat := sortKeys (l.map cellKey)

def lineKeys : List (List Nat) := lines.map lineKey

/-- Lexicographically positive step directions (one canonical direction per
geometric line). -/
def canonicalDirs : List (Int × Int × Int) :=
  ([-1, 0, 1] : List Int).flatMap fun a =>
    ([-1, 0, 1] : List Int).flatMap fun b =>
      ([-1, 0, 1] : List Int).filterMap fun c =>
        if 0 < a ∨ (a = 0 ∧ (0 < b ∨ (b = 0 ∧ 0 < c))) then some (a, b, c) else none

def inCube (p : Int × Int × Int) : Bool :=
  0 ≤ p.1 && p.1 < 4 && 0 ≤ p.2.1 && p.2.1 < 4 && 0 ≤ p.2.2 && p.2.2 < 4

def stepCells (s d : Int × Int × Int) : List (Int × Int × Int) :=
  ([0, 1, 2, 3] : List Int).map fun i =>
    (s.1 + i * d.1, s.2.1 + i * d.2.1, s.2.2 + i * d.2.2)

def intCellKey (p : Int × Int × Int) : Nat :=
  p.1.toNat * 16 + p.2.1.toNat * 4 + p.2.2.toNat

/-- Canonical keys of every straight 4-cell line of the 4×4×4 cube:
all in-cube arithmetic progressions of 4 cells with a canonical unit step. -/
def straightKeys : List (List Nat) :=
  (r4.flatMap fun sz => r4.flatMap fun sy => r4.map fun sx =>
      ((sz : Int), (sy : Int), (sx : Int))).flatMap fun s =>
    canonicalDirs.filterMap fun d =>
      let cs := stepCells s d
      if cs.all inCube then some (sortKeys (cs.map intCellKey)) else none

/- Game session state and the `move` branch of `_handle_message`. -/

structure LastMove where
  player : Nat
  z : Int
  y : Int
  x : Int
deriving DecidableEq, Repr

/-- The mutable game fields of `TicTacToe3DServer`. -/
structure GameState where
  board : Board
  current_player : Nat
  winner : Option Nat
  last_move : Option LastMove

/-- State at server start (`__init__`). -/
def initState : GameState :=
  { board := emptyBoard, current_player := 0, winner := none, last_move := none }

/-- The four reject paths of the `move` branch, in source order. -/
inductive Reason where
  | alreadyWon
  | notYourTurn
  | outOfRange
  | occupied
deriving DecidableEq, Repr

/-- Result of one `move` message: the state after the call, whether
`_broadcast_state` was invoked, and the rejection reason if any. -/
structure MoveOutcome where
  state : GameState
  broadcast : Bool
  reason : Option Reason

def boardSet (b : Board) (z y x : Nat) (v : Int) : Board :=
  fun z' y' x' => if z' = z ∧ y' = y ∧ x' = x then v else b z' y' x'

def inRange (z y x : Int) : Prop :=
  0 ≤ z ∧ z < 4 ∧ 0 ≤ y ∧ y < 4 ∧ 0 ≤ x ∧ x < 4

instance (z y x : Int) : Decidable (inRange z y x) := by unfold inRange; infer_instance

/-- The body of `_handle_message` for a `move` message after the
coordinates were coerced: checks in source order, then mutation,
`last_move`, win detection, turn toggle and broadcast. -/
def apply_move (s : GameState) (player : Nat) (z y x : Int) : MoveOutcome :=
  if s.winner ≠ none then ⟨s, false, some .alreadyWon⟩
  else if player ≠ s.current_player then ⟨s, false, some .notYourTurn⟩
  else if ¬ inRange z y x then ⟨s, false, some .outOfRange⟩
  else if s.board z.toNat y.toNat x.toNat ≠ 0 then ⟨s, false, some .occupied⟩
  else
    match check_winner (boardSet s.board z.toNat y.toNat x.toNat (mark player)) with
    | some w =>
      ⟨⟨boardSet s.board z.toNat y.toNat x.toNat (mark player), s.current_player,
        some w, some ⟨player, z, y, x⟩⟩, true, none⟩
    | none =>
      ⟨⟨boardSet s.board z.toNat y.toNat x.toNat (mark player), 1 - s.current_player,
        none, some ⟨player, z, y, x⟩⟩, true, none⟩

/-- Folding a whole sequence of move requests through `apply_move`. -/
def applySeq (s : GameState) (ms : List (Nat × Int × Int × Int)) : GameState :=
  ms.foldl (fun st m => (apply_move st m.1 m.2.1 m.2.2.1 m.2.2.2).state) s

/- A concrete fully-filled board with no completed line (a draw). -/

def drawVals : List Int :=
  [ 1, -1, -1, -1,  -1, -1,  1,  1,  -1,  1, -1, -1,  -1, -1,  1,  1,
    1, -1, -1,  1,  -1,  1,  1, -1,   1, -1, -1, -1,  -1,  1,  1,  1,
    1,  1,  1, -1,   1, -1,  1, -1,  -1, -1,  1,  1,   1,  1, -1,  1,
   -1,  1,  1,  1,  -1, -1, -1,  1,   1, -1,  1,  1,  -1,  1, -1, -1]

def drawBoard : Board := fun z y x => drawVals.getD (z * 16 + y * 4 + x) 0

/- Coercion of inbound message fields: `z = int(message.get("z"))` inside
`try/except`.  A JSON field value is a number, string, boolean, null
(also the result of `.get` on a missing key), array or object; `int()`
truncates numbers toward zero, parses optionally-signed decimal strings
(after stripping whitespace), maps booleans to 0/1, and raises on
everything else. -/

inductive JVal where
  | jnum (q : ℚ)
  | jstr (s : String)
  | jbool (b : Bool)
  | jnull
  | jarr
  | jobj

/-- Truncation toward zero, the behaviour of Python `int()` on a number. -/
def ratTrunc (q : ℚ) : Int :=
  if q.num < 0 then -(Int.ofNat (q.num.natAbs / q.den)) else Int.ofNat (q.num.natAbs / q.den)

def isDigitChar (c : Char) : Bool := 48 ≤ c.toNat && c.toNat ≤ 57

def isSpaceChar (c : Char) : Bool :=
  c.toNat = 32 || c.toNat = 9 || c.toNat = 10 || c.toNat = 13 || c.toNat = 11 || c.toNat = 12

def digitsToNat (cs : List Char) : Nat := cs.foldl (fun acc c => acc * 10 + (c.toNat - 48)) 0

/-- Python `int(s)` on a string: strip whitespace, optional sign, decimal
digits; anything else raises (`none`). -/
def parseIntChars (cs : List Char) : Option Int :=
  let t := ((cs.dropWhile isSpaceChar).reverse.dropWhile isSpaceChar).reverse
  match t with
  | [] => none
  | c :: rest =>
    if c = '+' then
      if rest ≠ [] ∧ rest.all isDigitChar then some (digitsToNat rest) else none
    else if c = '-' then
      if rest ≠ [] ∧ rest.all isDigitChar then some (-(digitsToNat rest : Int)) else none
    else if (c :: rest).all isDigitChar then some (digitsToNat (c :: rest)) else none

/-- Python `int()` on a decoded JSON value: `some` on success, `none`
when `int()` raises (which makes `_handle_message` return silently). -/
def pyInt : JVal → Option Int
  | .jnum q => some (ratTrunc q)
  | .jstr s => parseIntChars s.data
  | .jbool b => some (if b then 1 else 0)
  | .jnull => none
  | .jarr => none
  | .jobj => none

/-- An inbound `move` message: the client-asserted `player` field and the
three coordinate fields, all as raw JSON values. -/
structure MoveMsg where
  player : JVal
  z : JVal
  y : JVal
  x : JVal

/-- The whole `move` branch of `_handle_message` for the handler owning
slot `assigned`: coerce the three coordinates (silent discard when
`int()` raises), then act as `client_info["player_id"]` — the message's
`player` field is never consulted. -/
def handle_move (s : GameState) (assigned : Nat) (m : MoveMsg) : MoveOutcome :=
  match pyInt m.z with
  | none => ⟨s, false, none⟩
  | some z =>
    match pyInt m.y with
    | none => ⟨s, false, none⟩
    | some y =>
      match pyInt m.x with
      | none => ⟨s, false, none⟩
      | some x => apply_move s assigned z y x

/- Connection registry: the capacity gate of `_accept_loop` and the
lowest-free-slot scan of `_next_player_id`. -/

structure Conn where
  player_id : Nat
  alive : Bool
deriving DecidableEq, Repr

/-- `_next_player_id`: the set of slots of live clients, then the first
pid in `range(max_players)` not used; fallback `len(used)`. -/
def next_player_id (maxP : Nat) (cs : List Conn) : Nat :=
  match (List.range maxP).find?
      (fun pid => decide
        (pid ∉ ((cs.filter fun c => c.alive).map fun c => c.player_id).dedup)) with
  | some pid => pid
  | none => (((cs.filter fun c => c.alive).map fun c => c.player_id).dedup).length

/-- The admission step of `_accept_loop`: refuse when
`len(self.clients) >= self.max_players`, else append a live record with
the slot returned by `_next_player_id`. -/
def admitClient (maxP : Nat) (cs : List Conn) : Option (Nat × List Conn) :=
  if maxP ≤ cs.length then none
  else
    let pid := next_player_id maxP cs
    some (pid, cs ++ [⟨pid, true⟩])

/-- `n` successive admission attempts; each entry of the first component
records whether that attempt was admitted. -/
def admitMany (maxP : Nat) : Nat → List Conn → List Bool × List Conn
  | 0, cs => ([], cs)
  | n + 1, cs =>
    match admitClient maxP cs with
    | none =>
      let r := admitMany maxP n cs
      (false :: r.1, r.2)
    | some (_, cs') =>
      let r := admitMany maxP n cs'
      (true :: r.1, r.2)

/- Broadcaster: the delivery loop of `_broadcast_state`. -/

structure BConn where
  player_id : Nat
  alive : Bool
  failsSend : Bool
deriving DecidableEq, Repr

/-- `sendall` succeeds for this connection during the loop. -/
def sendOK (c : BConn) : Bool := c.alive && !c.failsSend

/-- Effect of the loop body on one record: a failing `sendall` marks the
record dead; everything else is untouched. -/
def afterSend (c : BConn) : BConn :=
  if c.alive && c.failsSend then ⟨c.player_id, false, c.failsSend⟩ else c

/-- `_broadcast_state`: the snapshot is serialized once into `d`; the loop
delivers `d` to every live connection whose write succeeds, marks failing
ones dead, and prunes the list when anything died. -/
def broadcastRun (d : String) (cs : List BConn) : List (Nat × String) × List BConn :=
  ((cs.filter sendOK).map fun c => (c.player_id, d),
   if cs.any fun c => c.alive && c.failsSend then
     (cs.map afterSend).filter fun c => c.alive
   else cs.map afterSend)

/- Lock discipline: the acquire/release/send event order of a successful
move, reading `_handle_message` and `_broadcast_state` as written. -/

inductive Ev where
  | acq
  | rel
  | send
deriving DecidableEq, Repr

/-- `_broadcast_state` as an event trace delivering to `n` clients: it
enters `with self.lock`, performs the network writes, and leaves. -/
def broadcastEvents (n : Nat) : List Ev := Ev.acq :: (List.replicate n Ev.send ++ [Ev.rel])

/-- Event trace of an accepted `move`: `_handle_message` enters
`with self.lock`, validates and mutates, calls `_broadcast_state`
before leaving the block, then leaves. -/
def acceptedMoveEvents (n : Nat) : List Ev := Ev.acq :: (broadcastEvents n ++ [Ev.rel])

/-- Pair every event with the number of lock acquisitions outstanding
just before it executes. -/
def depthList : List Ev → Nat → List (Ev × Nat)
  | [], _ => []
  | e :: es, d =>
    (e, d) :: depthList es (match e with | .acq => d + 1 | .rel => d - 1 | .send => d)

/-- A `move` message whose `player` field claims slot 1, to be sent on the
connection that holds slot 0. -/
def mismatchMsg : MoveMsg :=
  ⟨.jnum (mkRat 1 1), .jnum (mkRat 0 1), .jnum (mkRat 0 1), .jnum (mkRat 0 1)⟩

example : lines.length = 76 := by decide
example : rowLines.length = 16 ∧ colLines.length = 16 ∧ vertLines.length = 16 := by decide
example : faceZLines.length = 8 ∧ faceXLines.length = 8 ∧ faceYLines.length = 8 ∧
    spaceLines.length = 4 := by decide
example : lineKeys.Nodup := by decide
example : (lineKeys.all fun k => straightKeys.contains k) = true := by decide
example : (straightKeys.all fun k => lineKeys.contains k) = true := by decide
example : check_winner drawBoard = none := by decide
example : (r4.all fun z => r4.all fun y => r4.all fun x => drawBoard z y x != 0) = true := by
  decide
example : check_winner emptyBoard = none := by decide
example : (apply_move initState 0 0 0 0).reason = none := by decide
example : (apply_move initState 1 0 0 0).reason = some .notYourTurn := by decide
example : pyInt (.jstr "3") = some 3 := by decide
example : pyInt (.jstr "  -42 ") = some (-42) := by decide
example : pyInt (.jstr "1.9") = none := by decide
example : pyInt (.jnum (mkRat 19 10)) = some 1 := by decide
example : pyInt (.jnum (mkRat (-19) 10)) = some (-1) := by decide
example : pyInt .jnull = none := by decide
example : admitClient 2 [⟨1, true⟩] = some (0, [⟨1, true⟩, ⟨0, true⟩]) := by decide
example : admitClient 2 [⟨0, true⟩, ⟨1, true⟩] = none := by decide
example : broadcastRun "d" [⟨0, true, false⟩, ⟨1, true, true⟩] =
    ([(0, "d")], [⟨0, true, false⟩]) := by decide
example : depthList (acceptedMoveEvents 2) 0 =
    [(.acq, 0), (.acq, 1), (.send, 2), (.send, 2), (.rel, 2), (.rel, 1)] := by decide

/- Lemmas about one iteration of the winner loop. -/

lemma lineWinner_eq_some (b : Board) (l : List (Nat × Nat × Nat)) (p : Nat)
    (h : lineWinner b l = some p) : (p = 0 ∨ p = 1) ∧ ownsLine b p l := by
  unfold lineWinner at h
  split_ifs at h with h1 h2
  · cases h
    refine ⟨Or.inl rfl, ?_⟩
    unfold ownsLine
    simpa [mark] using h1
  · cases h
    refine ⟨Or.inr rfl, ?_⟩
    unfold ownsLine
    simpa [mark] using h2

lemma lineWinner_eq_none_iff (b : Board) (l : List (Nat × Nat × Nat)) :
    lineWinner b l = none ↔ ¬ ownsLine b 0 l ∧ ¬ ownsLine b 1 l := by
  unfold lineWinner ownsLine
  split_ifs with h1 h2 <;> simp [mark] at * <;> tauto

lemma check_winner_eq_none_iff (b : Board) :
    check_winner b = none ↔ ∀ l ∈ lines, ¬ ownsLine b 0 l ∧ ¬ ownsLine b 1 l := by
  unfold check_winner
  rw [List.findSome?_eq_none_iff]
  constructor <;> intro h l hl
  · exact (lineWinner_eq_none_iff b l).1 (h l hl)
  · exact (lineWinner_eq_none_iff b l).2 (h l hl)

lemma check_winner_some_owns (b : Board) (p : Nat) (h : check_winner b = some p) :
    (p = 0 ∨ p = 1) ∧ ∃ l ∈ lines, ownsLine b p l := by
  obtain ⟨l, hl, hw⟩ := List.exists_of_findSome?_eq_some h
  obtain ⟨hp, ho⟩ := lineWinner_eq_some b l p hw
  exact ⟨hp, l, hl, ho⟩

lemma check_winner_complete (b : Board)
    (hnd : ¬((∃ l ∈ lines, ownsLine b 0 l) ∧ (∃ l ∈ lines, ownsLine b 1 l)))
    (p : Nat) (hp : p = 0 ∨ p = 1) :
    check_winner b = some p ↔ ∃ l ∈ lines, ownsLine b p l := by
  constructor
  · intro h
    exact (check_winner_some_owns b p h).2
  · rintro ⟨l, hl, ho⟩
    cases hcw : check_winner b with
    | none =>
      rw [check_winner_eq_none_iff] at hcw
      rcases hp with rfl | rfl
      · exact absurd ho (hcw l hl).1
      · exact absurd ho (hcw l hl).2
    | some q =>
      obtain ⟨hq, hqo⟩ := check_winner_some_owns b q hcw
      rcases hp with rfl | rfl <;> rcases hq with rfl | rfl
      · rfl
      · exact absurd ⟨⟨l, hl, ho⟩, hqo⟩ hnd
      · exact absurd ⟨hqo, ⟨l, hl, ho⟩⟩ hnd
      · rfl

/-- C1: `check_winner` evaluates exactly the 76 straight 4-cell lines of the
4×4×4 cube (16 rows, 16 columns, 16 verticals, 24 face diagonals — 2 per
fixed z, 2 per fixed x, 2 per fixed y — and 4 space diagonals; all pairwise
distinct and together exactly the straight lines of the cube), returns a
player exactly when that player fully owns at least one enumerated line
(the per-player biconditional holding whenever the two players do not both
own complete lines, as in every reachable game state), and returns `none`
on a fully filled board with no complete line. -/
theorem check_winner_spec (b : Board) :
    lines.length = 76 ∧
    rowLines.length = 16 ∧ colLines.length = 16 ∧ vertLines.length = 16 ∧
    faceZLines.length = 8 ∧ faceXLines.length = 8 ∧ faceYLines.length = 8 ∧
    spaceLines.length = 4 ∧
    lineKeys.Nodup ∧
    (lineKeys.all fun k => straightKeys.contains k) = true ∧
    (straightKeys.all fun k => lineKeys.contains k) = true ∧
    (check_winner b = none ↔ ∀ l ∈ lines, ¬ ownsLine b 0 l ∧ ¬ ownsLine b 1 l) ∧
    (∀ p, check_winner b = some p → (p = 0 ∨ p = 1) ∧ ∃ l ∈ lines, ownsLine b p l) ∧
    (¬((∃ l ∈ lines, ownsLine b 0 l) ∧ (∃ l ∈ lines, ownsLine b 1 l)) →
      ∀ p, p = 0 ∨ p = 1 → (check_winner b = some p ↔ ∃ l ∈ lines, ownsLine b p l)) ∧
    check_winner drawBoard = none ∧
    (r4.all fun z => r4.all fun y => r4.all fun x => drawBoard z y x != 0) = true := by
  refine ⟨by decide, by decide, by decide, by decide, by decide, by decide, by decide,
    by decide, by decide, by decide, by decide, check_winner_eq_none_iff b,
    check_winner_some_owns b, check_winner_complete b, by decide, by decide⟩

/-- C1 witness: the characterization instantiated at the concrete draw
board. -/
theorem check_winner_spec_w : lines.length = 76 ∧ check_winner drawBoard = none :=
  ⟨(check_winner_spec drawBoard).1,
   (check_winner_spec drawBoard).2.2.2.2.2.2.2.2.2.2.2.2.2.2.1⟩

/-- C2: an accepted move (no winner, mover holds the turn, coordinates in
range, target cell empty) sets exactly the target cell to the mover's
mark, records `last_move`, runs win detection; on a found winner it sets
`winner` to that player and leaves `current_turn` unchanged, otherwise it
flips the turn and leaves `winner` unset; the broadcast is triggered. -/
theorem apply_move_success_spec (s : GameState) (p : Nat) (z y x : Int)
    (hw : s.winner = none) (ht : p = s.current_player)
    (hr : inRange z y x) (hc : s.board z.toNat y.toNat x.toNat = 0) :
    (apply_move s p z y x).reason = none ∧
    (apply_move s p z y x).broadcast = true ∧
    (apply_move s p z y x).state.board z.toNat y.toNat x.toNat = mark p ∧
    (∀ z' y' x', ¬(z' = z.toNat ∧ y' = y.toNat ∧ x' = x.toNat) →
      (apply_move s p z y x).state.board z' y' x' = s.board z' y' x') ∧
    (apply_move s p z y x).state.last_move = some ⟨p, z, y, x⟩ ∧
    (∀ w, check_winner (boardSet s.board z.toNat y.toNat x.toNat (mark p)) = some w →
      (apply_move s p z y x).state.winner = some w ∧
      (apply_move s p z y x).state.current_player = s.current_player) ∧
    (check_winner (boardSet s.board z.toNat y.toNat x.toNat (mark p)) = none →
      (apply_move s p z y x).state.winner = none ∧
      (apply_move s p z y x).state.current_player = 1 - s.current_player) := by
  have hA : apply_move s p z y x =
      match check_winner (boardSet s.board z.toNat y.toNat x.toNat (mark p)) with
      | some w =>
        ⟨⟨boardSet s.board z.toNat y.toNat x.toNat (mark p), s.current_player,
          some w, some ⟨p, z, y, x⟩⟩, true, none⟩
      | none =>
        ⟨⟨boardSet s.board z.toNat y.toNat x.toNat (mark p), 1 - s.current_player,
          none, some ⟨p, z, y, x⟩⟩, true, none⟩ := by
    unfold apply_move
    rw [if_neg (by simp [hw]), if_neg (by simp [ht]), if_neg (not_not_intro hr),
      if_neg (by simp [hc])]
  cases hcw : check_winner (boardSet s.board z.toNat y.toNat x.toNat (mark p)) with
  | some w =>
    rw [hcw] at hA
    refine ⟨by rw [hA], by rw [hA], ?_, ?_, by rw [hA], ?_, ?_⟩
    · rw [hA]
      simp [boardSet]
    · intro z' y' x' hne
      rw [hA]
      simp only [boardSet, if_neg hne]
    · intro w' hw'
      cases hw'
      exact ⟨by rw [hA], by rw [hA]⟩
    · intro hnone
      cases hnone
  | none =>
    rw [hcw] at hA
    refine ⟨by rw [hA], by rw [hA], ?_, ?_, by rw [hA], ?_, ?_⟩
    · rw [hA]
      simp [boardSet]
    · intro z' y' x' hne
      rw [hA]
      simp only [boardSet, if_neg hne]
    · intro w' hw'
      cases hw'
    · intro _
      exact ⟨by rw [hA], by rw [hA]⟩

/-- C2 witness: the opening move of the game, player 0 at (0,0,0). -/
theorem apply_move_success_spec_w :
    initState.winner = none ∧
    (apply_move initState 0 0 0 0).reason = none ∧
    (apply_move initState 0 0 0 0).state.last_move = some ⟨0, 0, 0, 0⟩ :=
  ⟨rfl, (apply_move_success_spec initState 0 0 0 0 rfl rfl (by decide) rfl).1,
   (apply_move_success_spec initState 0 0 0 0 rfl rfl (by decide) rfl).2.2.2.2.1⟩

/-- C3: rejections are checked in source order — winner already set, then
wrong turn, then out-of-range, then occupied cell — each reason occurring
exactly when the earlier checks pass and its own fails, and a rejected
call returns the state unchanged with no broadcast. -/
theorem apply_move_reject_spec (s : GameState) (p : Nat) (z y x : Int) :
    (∀ r, (apply_move s p z y x).reason = some r →
      (apply_move s p z y x).state = s ∧ (apply_move s p z y x).broadcast = false) ∧
    ((apply_move s p z y x).reason = some .alreadyWon ↔ s.winner ≠ none) ∧
    ((apply_move s p z y x).reason = some .notYourTurn ↔
      s.winner = none ∧ p ≠ s.current_player) ∧
    ((apply_move s p z y x).reason = some .outOfRange ↔
      s.winner = none ∧ p = s.current_player ∧ ¬ inRange z y x) ∧
    ((apply_move s p z y x).reason = some .occupied ↔
      s.winner = none ∧ p = s.current_player ∧ inRange z y x ∧
      s.board z.toNat y.toNat x.toNat ≠ 0) := by
  by_cases h1 : s.winner = none
  · by_cases h2 : p = s.current_player
    · by_cases h3 : inRange z y x
      · by_cases h4 : s.board z.toNat y.toNat x.toNat = 0
        · have hA : apply_move s p z y x =
              match check_winner (boardSet s.board z.toNat y.toNat x.toNat (mark p)) with
              | some w =>
                ⟨⟨boardSet s.board z.toNat y.toNat x.toNat (mark p), s.current_player,
                  some w, some ⟨p, z, y, x⟩⟩, true, none⟩
              | none =>
                ⟨⟨boardSet s.board z.toNat y.toNat x.toNat (mark p), 1 - s.current_player,
                  none, some ⟨p, z, y, x⟩⟩, true, none⟩ := by
            unfold apply_move
            rw [if_neg (by simp [h1]), if_neg (by simp [h2]), if_neg (not_not_intro h3),
              if_neg (by simp [h4])]
          cases hcw : check_winner (boardSet s.board z.toNat y.toNat x.toNat (mark p)) <;>
            rw [hcw] at hA <;> rw [hA] <;> simp [h1, h2, h3, h4]
        · have hA : apply_move s p z y x = ⟨s, false, some .occupied⟩ := by
            unfold apply_move
            rw [if_neg (by simp [h1]), if_neg (by simp [h2]), if_neg (not_not_intro h3),
              if_pos h4]
          rw [hA]
          simp [h1, h2, h3, h4]
      · have hA : apply_move s p z y x = ⟨s, false, some .outOfRange⟩ := by
          unfold apply_move
          rw [if_neg (by simp [h1]), if_neg (by simp [h2]), if_pos h3]
        rw [hA]
        simp [h1, h2, h3]
    · have hA : apply_move s p z y x = ⟨s, false, some .notYourTurn⟩ := by
        unfold apply_move
        rw [if_neg (by simp [h1]), if_pos h2]
      rw [hA]
      simp [h1, h2]
  · have hA : apply_move s p z y x = ⟨s, false, some .alreadyWon⟩ := by
      unfold apply_move
      rw [if_pos h1]
    rw [hA]
    simp [h1]

/-- C3 witness: a wrong-turn move on the initial state. -/
theorem apply_move_reject_spec_w :
    (apply_move initState 1 0 0 0).reason = some .notYourTurn ↔
      initState.winner = none ∧ 1 ≠ initState.current_player :=
  (apply_move_reject_spec initState 1 0 0 0).2.2.1

/-- C4: once `winner` is set, every subsequent move from either slot with
any coordinates is rejected with the already-won reason, no broadcast
occurs, and any sequence of further move requests leaves the whole game
state unchanged. -/
theorem winner_frozen (s : GameState) (w : Nat) (hw : s.winner = some w)
    (ms : List (Nat × Int × Int × Int)) :
    (∀ p z y x, apply_move s p z y x = ⟨s, false, some .alreadyWon⟩) ∧
    applySeq s ms = s := by
  have h1 : ∀ p z y x, apply_move s p z y x = ⟨s, false, some .alreadyWon⟩ := by
    intro p z y x
    unfold apply_move
    rw [if_pos (by simp [hw])]
  refine ⟨h1, ?_⟩
  induction ms with
  | nil => rfl
  | cons m ms ih =>
    unfold applySeq
    rw [List.foldl_cons, h1 m.1 m.2.1 m.2.2.1 m.2.2.2]
    simpa [applySeq] using ih

/-- C4 witness: a finished game (winner 0) absorbs a further move
request without change. -/
theorem winner_frozen_w :
    applySeq ⟨emptyBoard, 0, some 0, none⟩ [(0, 0, 0, 0), (1, 1, 1, 1)] =
      ⟨emptyBoard, 0, some 0, none⟩ :=
  (winner_frozen ⟨emptyBoard, 0, some 0, none⟩ 0 rfl [(0, 0, 0, 0), (1, 1, 1, 1)]).2

/-- C9: the session state created at server start has an all-empty board,
no winner, no last move, and `current_player = 0`; hence the first move
that can ever be accepted must come from slot 0. -/
theorem initState_spec :
    (∀ z y x, initState.board z y x = 0) ∧
    initState.winner = none ∧ initState.last_move = none ∧
    initState.current_player = 0 ∧
    (∀ p z y x, (apply_move initState p z y x).reason = none → p = 0) := by
  refine ⟨fun _ _ _ => rfl, rfl, rfl, rfl, ?_⟩
  intro p z y x h
  by_cases hp : p = 0
  · exact hp
  · exfalso
    have hne : p ≠ initState.current_player := by simpa [initState] using hp
    unfold apply_move at h
    rw [if_neg (by simp [initState]), if_pos hne] at h
    simp at h

/-- C9 witness: the concrete initial-state fields. -/
theorem initState_spec_w :
    initState.current_player = 0 ∧ initState.winner = none :=
  ⟨initState_spec.2.2.2.1, initState_spec.2.1⟩

/-- A move that triggers the broadcast records the acting player in
`last_move`. -/
lemma apply_move_broadcast_last (s : GameState) (p : Nat) (z y x : Int)
    (h : (apply_move s p z y x).broadcast = true) :
    (apply_move s p z y x).state.last_move = some ⟨p, z, y, x⟩ := by
  unfold apply_move at h ⊢
  split_ifs at h ⊢ with h1 h2 h3 h4 <;>
    first
      | exact Bool.noConfusion h
      | (cases hcw : check_winner (boardSet s.board z.toNat y.toNat x.toNat (mark p)) <;>
          rfl)

/-- C6 counterexample: on the initial state, the slot-0 handler receives a
`move` message whose `player` field claims slot 1; the code accepts it
(and applies it as a slot-0 move), so a message claiming a different slot
than the handler's is not rejected. -/
theorem claimed_slot_cex :
    pyInt mismatchMsg.player = some 1 ∧
    (handle_move initState 0 mismatchMsg).reason = none ∧
    (handle_move initState 0 mismatchMsg).broadcast = true ∧
    (handle_move initState 0 mismatchMsg).state.last_move = some ⟨0, 0, 0, 0⟩ := by
  decide

/-- C6 amended: the client-asserted `player` field of a `move` message is
ignored entirely — the outcome is the same whatever that field holds, and
any accepted move is applied with the handler's registry-assigned slot as
the acting player. -/
theorem handle_move_uses_assigned_slot (s : GameState) (a : Nat) (m m' : MoveMsg)
    (hz : m.z = m'.z) (hy : m.y = m'.y) (hx : m.x = m'.x) :
    handle_move s a m = handle_move s a m' ∧
    ((handle_move s a m).broadcast = true →
      ∃ z y x, pyInt m.z = some z ∧ pyInt m.y = some y ∧ pyInt m.x = some x ∧
        (handle_move s a m).state.last_move = some ⟨a, z, y, x⟩) := by
  obtain ⟨mp, mz, my, mx⟩ := m
  obtain ⟨mp', mz', my', mx'⟩ := m'
  simp only at hz hy hx
  subst hz
  subst hy
  subst hx
  refine ⟨rfl, ?_⟩
  intro hb
  unfold handle_move at hb ⊢
  cases hpz : pyInt mz with
  | none => rw [hpz] at hb; exact Bool.noConfusion hb
  | some z =>
    cases hpy : pyInt my with
    | none => rw [hpz, hpy] at hb; exact Bool.noConfusion hb
    | some y =>
      cases hpx : pyInt mx with
      | none => rw [hpz, hpy, hpx] at hb; exact Bool.noConfusion hb
      | some x =>
        rw [hpz, hpy, hpx] at hb
        exact ⟨z, y, x, rfl, rfl, rfl, apply_move_broadcast_last s a z y x hb⟩

/-- C6 amended witness: two messages differing only in the claimed
`player` field produce identical outcomes on the slot-0 handler. -/
theorem handle_move_uses_assigned_slot_w :
    handle_move initState 0 mismatchMsg =
      handle_move initState 0 ⟨.jnull, .jnum (mkRat 0 1), .jnum (mkRat 0 1), .jnum (mkRat 0 1)⟩ :=
  (handle_move_uses_assigned_slot initState 0 mismatchMsg
    ⟨.jnull, .jnum (mkRat 0 1), .jnum (mkRat 0 1), .jnum (mkRat 0 1)⟩ rfl rfl rfl).1

/-- C10: each coordinate field is coerced with Python `int()` before
validation — numbers are truncated toward zero (z = 1.9 is processed as
z = 1), integer strings parse, and exactly the messages on which some
coordinate coercion raises are silently discarded with no state change
and no broadcast. -/
theorem int_coercion_spec :
    pyInt (JVal.jnum (mkRat 19 10)) = some 1 ∧
    pyInt (JVal.jnum (mkRat (-19) 10)) = some (-1) ∧
    pyInt (JVal.jstr "3") = some 3 ∧
    pyInt (JVal.jstr "abc") = none ∧
    pyInt JVal.jnull = none ∧
    (∀ s a m z y x, pyInt m.z = some z → pyInt m.y = some y → pyInt m.x = some x →
      handle_move s a m = apply_move s a z y x) ∧
    (∀ s a m, pyInt m.z = none ∨ pyInt m.y = none ∨ pyInt m.x = none →
      handle_move s a m = ⟨s, false, none⟩) ∧
    handle_move initState 0 ⟨JVal.jnull, JVal.jnum (mkRat 19 10), JVal.jnum (mkRat 0 1),
      JVal.jnum (mkRat 0 1)⟩ = apply_move initState 0 1 0 0 ∧
    (handle_move initState 0 ⟨JVal.jnull, JVal.jnum (mkRat 19 10), JVal.jnum (mkRat 0 1),
      JVal.jnum (mkRat 0 1)⟩).state.last_move = some ⟨0, 1, 0, 0⟩ := by
  refine ⟨by decide, by decide, by decide, by decide, rfl, ?_, ?_, rfl, by decide⟩
  · intro s a m z y x hz hy hx
    unfold handle_move
    rw [hz, hy, hx]
  · intro s a m h
    rcases h with h | h | h
    · unfold handle_move
      rw [h]
    · cases hz : pyInt m.z with
      | none => unfold handle_move; rw [hz]
      | some z => unfold handle_move; rw [hz, h]
    · cases hz : pyInt m.z with
      | none => unfold handle_move; rw [hz]
      | some z =>
        cases hy : pyInt m.y with
        | none => unfold handle_move; rw [hz, hy]
        | some y => unfold handle_move; rw [hz, hy, h]

/-- C10 witness: the general clauses instantiated at the message with
z = 1.9 (accepted as z = 1) and at a message with a null coordinate. -/
theorem int_coercion_spec_w :
    handle_move initState 0 ⟨JVal.jnull, JVal.jnum (mkRat 19 10), JVal.jnum (mkRat 0 1),
      JVal.jnum (mkRat 0 1)⟩ = apply_move initState 0 1 0 0 ∧
    handle_move initState 0 ⟨JVal.jnull, JVal.jnull, JVal.jnum (mkRat 0 1),
      JVal.jnum (mkRat 0 1)⟩ = ⟨initState, false, none⟩ :=
  ⟨int_coercion_spec.2.2.2.2.2.2.2.1,
   int_coercion_spec.2.2.2.2.2.2.1 initState 0
     ⟨JVal.jnull, JVal.jnull, JVal.jnum (mkRat 0 1), JVal.jnum (mkRat 0 1)⟩ (Or.inl rfl)⟩

/-- C8: during a broadcast every delivered message carries the same
serialized snapshot; every live connection whose write succeeds receives
it and stays registered, regardless of failures on other connections; a
write failure marks only that connection dead and removes it from the
live set. -/
theorem broadcast_spec (d : String) (cs : List BConn) :
    (∀ q ∈ (broadcastRun d cs).1, q.2 = d) ∧
    (∀ c ∈ cs, sendOK c = true → (c.player_id, d) ∈ (broadcastRun d cs).1) ∧
    (∀ c ∈ cs, sendOK c = true → c ∈ (broadcastRun d cs).2) ∧
    (∀ c ∈ cs, ¬(c.alive = true ∧ c.failsSend = true) → afterSend c = c) ∧
    (∀ c ∈ cs, c.alive = true → c.failsSend = true →
      afterSend c = ⟨c.player_id, false, true⟩) ∧
    ((cs.any fun c => c.alive && c.failsSend) = true →
      ∀ c' ∈ (broadcastRun d cs).2, c'.alive = true) ∧
    (broadcastRun d cs).1.length = (cs.filter sendOK).length := by
  have hAfterId : ∀ c : BConn, c.failsSend = false → afterSend c = c := by
    intro c hf
    unfold afterSend
    rw [if_neg (by simp [hf])]
  refine ⟨?_, ?_, ?_, ?_, ?_, ?_, ?_⟩
  · intro q hq
    rcases List.mem_map.mp hq with ⟨c, _, rfl⟩
    rfl
  · intro c hc hok
    exact List.mem_map_of_mem _ (List.mem_filter.mpr ⟨hc, hok⟩)
  · intro c hc hok
    have hal : c.alive = true ∧ c.failsSend = false := by
      unfold sendOK at hok
      rw [Bool.and_eq_true] at hok
      exact ⟨hok.1, by simpa using hok.2⟩
    have hmem : c ∈ cs.map afterSend := by
      have h := List.mem_map_of_mem afterSend hc
      rwa [hAfterId c hal.2] at h
    show c ∈ (broadcastRun d cs).2
    unfold broadcastRun
    by_cases hany : (cs.any fun c => c.alive && c.failsSend) = true
    · simp only [hany, if_true]
      exact List.mem_filter.mpr ⟨hmem, hal.1⟩
    · simp only [hany, if_false]
      exact hmem
  · intro c _ hn
    unfold afterSend
    rw [if_neg]
    intro hcon
    exact hn ⟨(Bool.and_eq_true .. ▸ hcon).1, (Bool.and_eq_true .. ▸ hcon).2⟩
  · intro c _ h1 h2
    unfold afterSend
    rw [if_pos (by simp [h1, h2]), h2]
  · intro hany c' hc'
    unfold broadcastRun at hc'
    simp only [hany, if_true] at hc'
    exact (List.mem_filter.mp hc').2
  · simp [broadcastRun]

/-- C8 witness: two live clients, the write to the second one fails — the
first still receives the snapshot and the second is pruned. -/
theorem broadcast_spec_w :
    ((0 : Nat), "snap") ∈ (broadcastRun "snap" [⟨0, true, false⟩, ⟨1, true, true⟩]).1 :=
  (broadcast_spec "snap" [⟨0, true, false⟩, ⟨1, true, true⟩]).2.1
    ⟨0, true, false⟩ (by decide) (by decide)

/-- Depths of a block of send events: all at the depth where the block
starts. -/
lemma depthList_replicate_send (n d : Nat) (t : List Ev) :
    depthList (List.replicate n Ev.send ++ t) d =
      List.replicate n (Ev.send, d) ++ depthList t d := by
  induction n with
  | zero => rfl
  | succ m ih => simp [List.replicate_succ, depthList, ih]

/-- C5 (divergence witness): in the event trace of an accepted move, as the
code is written, the network-write events of the broadcast all occur with
the shared-state lock still held (depth ≥ 1), and the trace contains a
second acquire of the non-reentrant lock at depth 1 — the nested
`with self.lock` of `_broadcast_state` called from inside
`_handle_message`'s locked block, which self-deadlocks. -/
theorem lock_held_during_broadcast (n : Nat) :
    (∀ p ∈ depthList (acceptedMoveEvents n) 0, p.1 = Ev.send → 1 ≤ p.2) ∧
    (Ev.acq, 1) ∈ depthList (acceptedMoveEvents n) 0 := by
  have hD : depthList (acceptedMoveEvents n) 0 =
      (Ev.acq, 0) :: (Ev.acq, 1) ::
        (List.replicate n (Ev.send, 2) ++ [(Ev.rel, 2), (Ev.rel, 1)]) := by
    unfold acceptedMoveEvents broadcastEvents
    rw [List.cons_append, List.append_assoc]
    simp only [depthList]
    rw [depthList_replicate_send]
    rfl
  rw [hD]
  constructor
  · intro p hp hs
    simp only [List.mem_cons, List.mem_append, List.mem_replicate, List.not_mem_nil,
      or_false] at hp
    rcases hp with rfl | rfl | ⟨-, rfl⟩ | rfl | rfl
    · exact absurd hs (by decide)
    · exact absurd hs (by decide)
    · decide
    · decide
    · decide
  · simp

/-- C5 witness: the trace with two connected clients. -/
theorem lock_held_during_broadcast_w :
    (Ev.acq, 1) ∈ depthList (acceptedMoveEvents 2) 0 :=
  (lock_held_during_broadcast 2).2

/-- `find?` over `range n` returns the least index satisfying the
predicate. -/
lemma find?_range_least (P : Nat → Bool) (n k : Nat)
    (h : (List.range n).find? P = some k) : P k = true ∧ ∀ j < k, P j = false := by
  induction n with
  | zero => cases h
  | succ m ih =>
    rw [List.range_succ, List.find?_append] at h
    cases h1 : (List.range m).find? P with
    | some q =>
      rw [h1] at h
      have h2 : some q = some k := h
      cases h2
      exact ih h1
    | none =>
      rw [h1] at h
      have h2 : List.find? P [m] = some k := h
      by_cases hm : P m = true
      · rw [List.find?_cons_of_pos _ hm] at h2
        cases h2
        refine ⟨hm, fun j hj => ?_⟩
        have hnone := List.find?_eq_none.mp h1 j (List.mem_range.mpr hj)
        exact Bool.eq_false_iff.mpr hnone
      · rw [List.find?_cons_of_neg _ hm] at h2
        exact Option.noConfusion h2

/-- When a strict majority of slots is free, `find?` locates the least
slot not yet used. -/
lemma find_least_unused (maxP : Nat) (used : List Nat) (hlen : used.length < maxP) :
    ∃ k, (List.range maxP).find? (fun pid => decide (pid ∉ used)) = some k ∧
      k ∉ used ∧ ∀ j < k, j ∈ used := by
  cases hf : (List.range maxP).find? (fun pid => decide (pid ∉ used)) with
  | none =>
    exfalso
    have hall := List.find?_eq_none.mp hf
    have hsub : List.range maxP ⊆ used := by
      intro j hj
      have h := hall j hj
      simpa using h
    have hle := (List.subperm_of_subset (List.nodup_range maxP) hsub).length_le
    rw [List.length_range] at hle
    omega
  | some k =>
    refine ⟨k, rfl, ?_, fun j hj => ?_⟩
    · simpa using List.find?_some hf
    · have hl := (find?_range_least _ maxP k hf).2 j hj
      simpa using hl

/-- `_next_player_id` on a registry of live records with a free slot:
the result is the lowest slot in `[0, maxP)` not already held. -/
lemma next_player_id_spec (maxP : Nat) (cs : List Conn)
    (hlen : cs.length < maxP) (hAlive : ∀ c ∈ cs, c.alive = true) :
    next_player_id maxP cs < maxP ∧
    (∀ c ∈ cs, c.player_id ≠ next_player_id maxP cs) ∧
    (∀ q < next_player_id maxP cs, ∃ c ∈ cs, c.player_id = q) := by
  have hul : (((cs.filter fun c => c.alive).map fun c => c.player_id).dedup).length < maxP := by
    calc (((cs.filter fun c => c.alive).map fun c => c.player_id).dedup).length
        ≤ ((cs.filter fun c => c.alive).map fun c => c.player_id).length :=
          (List.dedup_sublist _).length_le
      _ = (cs.filter fun c => c.alive).length := by rw [List.length_map]
      _ ≤ cs.length := List.length_filter_le _ _
      _ < maxP := hlen
  obtain ⟨k, hk, hknot, hkall⟩ := find_least_unused maxP _ hul
  have hnp : next_player_id maxP cs = k := by
    unfold next_player_id
    rw [hk]
  rw [hnp]
  refine ⟨List.mem_range.mp (List.mem_of_find?_eq_some hk), ?_, ?_⟩
  · intro c hc heq
    apply hknot
    rw [List.mem_dedup]
    exact List.mem_map.mpr ⟨c, List.mem_filter.mpr ⟨hc, hAlive c hc⟩, heq⟩
  · intro q hq
    have hmem := hkall q hq
    rw [List.mem_dedup] at hmem
    rcases List.mem_map.mp hmem with ⟨c, hcf, hcq⟩
    exact ⟨c, (List.mem_filter.mp hcf).1, hcq⟩

/-- C7: admission refuses exactly when the registry has reached
`max_players` live connections — and keeps refusing no matter how many
times it is attempted, leaving the registry unchanged; otherwise the
admitted client is appended with the lowest slot in `[0, max_players)`
not held by any live connection, so a vacated slot (slot 0 included) is
reassigned to the next admitted client. -/
theorem admit_spec (maxP : Nat) (cs : List Conn) (hAlive : ∀ c ∈ cs, c.alive = true) :
    (admitClient maxP cs = none ↔ maxP ≤ cs.length) ∧
    (∀ n, maxP ≤ cs.length → admitMany maxP n cs = (List.replicate n false, cs)) ∧
    (∀ pid cs', admitClient maxP cs = some (pid, cs') →
      pid < maxP ∧ (∀ c ∈ cs, c.player_id ≠ pid) ∧
      (∀ q < pid, ∃ c ∈ cs, c.player_id = q) ∧ cs' = cs ++ [⟨pid, true⟩]) ∧
    admitClient 2 [⟨1, true⟩] = some (0, [⟨1, true⟩, ⟨0, true⟩]) := by
  refine ⟨?_, ?_, ?_, by decide⟩
  · unfold admitClient
    split_ifs with h <;> simp [h]
  · intro n h
    have href : admitClient maxP cs = none := by
      unfold admitClient
      rw [if_pos h]
    induction n with
    | zero => rfl
    | succ m ih =>
      unfold admitMany
      rw [href, ih]
      rw [List.replicate_succ]
  · intro pid cs' h
    unfold admitClient at h
    split_ifs at h with hle
    injection h with h'
    injection h' with h1 h2
    subst h1
    subst h2
    have hlt : cs.length < maxP := not_le.mp hle
    obtain ⟨ha, hb, hc⟩ := next_player_id_spec maxP cs hlt hAlive
    exact ⟨ha, hb, hc, rfl⟩

/-- C7 witness: with `max_players = 2` and only slot 1 still held, the
next admitted client gets the vacated slot 0; with both slots held,
admission refuses. -/
theorem admit_spec_w :
    admitClient 2 [⟨1, true⟩] = some (0, [⟨1, true⟩, ⟨0, true⟩]) ∧
    (admitClient 2 [⟨0, true⟩, ⟨1, true⟩] = none ↔ 2 ≤ 2) ∧
    admitMany 2 3 [⟨0, true⟩, ⟨1, true⟩] =
      (List.replicate 3 false, [⟨0, true⟩, ⟨1, true⟩]) :=
  ⟨(admit_spec 2 [⟨1, true⟩] (by decide)).2.2.2,
   (admit_spec 2 [⟨0, true⟩, ⟨1, true⟩] (by decide)).1,
   (admit_spec 2 [⟨0, true⟩, ⟨1, true⟩] (by decide)).2.1 3 (by decide)⟩

end TTT3D
